import Mathlib

set_option maxRecDepth 16000
set_option maxHeartbeats 1000000

/-!
Verification of the SCEPTTr core (redesignofguiforscepttr/main.cpp) against its
natural-language specification.  Doubles are modelled as rationals; C++ shorts
as naturals/integers.  Each definition is a direct translation of the matching
region of main.cpp; line references are given in the doc comments.
-/

namespace Scepttr

/-! ## Interaction selector: `PairWiseCalc`, main.cpp lines 56-121.

The C++ function is a depth-first recursion over sites `currentPair..lastPair`.
Within one invocation, `currentPWSum` is a single local variable that the
"no pair" (lines 67-82), "lateral" (84-100) and "axial" (102-118) branches
mutate in sequence, and each branch returns early when `currentPair == lastPair`.
`pwGo` carries the number of sites remaining after the current one (so
`rem = lastPair - currentPair`) as a structural fuel argument; `cur` is kept
so that the array reads `XPW[currentPair]` / `LPW[currentPair]` stay explicit. -/

def posPart (q : ℚ) : ℚ := max q 0

/-- Translation of the body of `PairWiseCalc` for `currentPair ≤ lastPair`;
`rem = lastPair - currentPair`.  At the last site (`rem = 0`) the first branch
whose guard holds returns: the no-pair branch when `previousPWType ≠ 0`, else
the lateral branch (its guard `previousPWType ≠ 2` holds since the previous
type is then 0).  At interior sites all three branches run in order, the
lateral branch adding `LPW[cur]` (if positive) to the *shared* running sum that
the axial branch then extends with `XPW[cur]` (if positive). -/
def pwGo (X L : ℕ → ℚ) : ℕ → ℕ → ℕ → ℚ → ℚ → ℚ
  | 0, cur, prev, sum0, best0 =>
    if prev ≠ 0 then (if sum0 > best0 then sum0 else best0)
    else
      let sum1 := if L cur > 0 then sum0 + L cur else sum0
      if sum1 > best0 then sum1 else best0
  | rem + 1, cur, prev, sum0, best0 =>
    let best1 := if prev ≠ 0 then pwGo X L rem (cur + 1) 0 sum0 best0 else best0
    let sum1 := if prev ≠ 2 then (if L cur > 0 then sum0 + L cur else sum0) else sum0
    let best2 := if prev ≠ 2 then pwGo X L rem (cur + 1) 1 sum1 best1 else best1
    let sum2 := if X cur > 0 then sum1 + X cur else sum1
    pwGo X L rem (cur + 1) 2 sum2 best2

/-- `PairWiseCalc` (main.cpp lines 56-121): returns `BestPWTotal` at once when
`currentPair > lastPair` (line 62), otherwise runs the branch cascade. -/
def PairWiseCalc (X L : ℕ → ℚ) (currentPair lastPair prev : ℕ) (sum best : ℚ) : ℚ :=
  if lastPair < currentPair then best
  else pwGo X L (lastPair - currentPair) currentPair prev sum best

/-- Reference value: the best additional contribution obtainable from the
remaining sites, given the previous site's type, mirroring the branch structure
of the recursion (including the shared-sum carry-over from the lateral into the
axial branch, and the forced terminal branch). -/
def pwBest (X L : ℕ → ℚ) : ℕ → ℕ → ℕ → ℚ
  | 0, cur, prev => if prev ≠ 0 then 0 else posPart (L cur)
  | rem + 1, cur, prev =>
    if prev = 2 then
      max (pwBest X L rem (cur + 1) 0)
        (posPart (X cur) + pwBest X L rem (cur + 1) 2)
    else if prev = 0 then
      max (posPart (L cur) + pwBest X L rem (cur + 1) 1)
        (posPart (L cur) + posPart (X cur) + pwBest X L rem (cur + 1) 2)
    else
      max (pwBest X L rem (cur + 1) 0)
        (max (posPart (L cur) + pwBest X L rem (cur + 1) 1)
          (posPart (L cur) + posPart (X cur) + pwBest X L rem (cur + 1) 2))

/-! Model of the specification's description of the interaction selector
(spec §4.2), used to compare the code against the claimed semantics: each site
gets one state in {None, Lateral, Axial}; two consecutive sites are never both
None; a site is never Lateral right after an Axial site; a chosen Lateral/Axial
site contributes its value only when strictly positive. -/

inductive PWSt where
  | non : PWSt
  | lat : PWSt
  | axi : PWSt
deriving DecidableEq

def validPW : List PWSt → Bool
  | PWSt.non :: PWSt.non :: _ => false
  | PWSt.axi :: PWSt.lat :: _ => false
  | _ :: rest => validPW rest
  | [] => true

def pwScoreAux (X L : ℕ → ℚ) : ℕ → List PWSt → ℚ
  | _, [] => 0
  | i, PWSt.non :: rest => pwScoreAux X L (i + 1) rest
  | i, PWSt.lat :: rest => (if L i > 0 then L i else 0) + pwScoreAux X L (i + 1) rest
  | i, PWSt.axi :: rest => (if X i > 0 then X i else 0) + pwScoreAux X L (i + 1) rest

def allStates : ℕ → List (List PWSt)
  | 0 => [[]]
  | n + 1 =>
    (allStates n).foldr
      (fun s acc => (PWSt.non :: s) :: (PWSt.lat :: s) :: (PWSt.axi :: s) :: acc) []

/-- Specification-side value (spec §4.2 / claims C1, C3): the maximum sum of
positive contributions over all valid state assignments to sites
`0..lastPair`.  All contributions are nonnegative, so folding `max` from 0
computes the maximum. -/
def pwSpecMax (X L : ℕ → ℚ) (lastPair : ℕ) : ℚ :=
  ((allStates (lastPair + 1)).filter validPW).foldr
    (fun s acc => if pwScoreAux X L 0 s > acc then pwScoreAux X L 0 s else acc) 0

/-! ## Deviation rule, main.cpp lines 1325-1361.

The register comparison at line 1325 compares only the first three components
of `CCRegister` and `bestRegister`.  In the mismatch branch with the sentinel
`expTm == -10` (lines 1340-1343), the code uses `maxTm`, not `CCTm`. -/

def scoreDeviation (ccReg bestReg : ℕ × ℕ × ℕ) (expTm maxTm ccTm : ℚ) : ℚ :=
  if ccReg = bestReg then
    if expTm = -10 then (if maxTm ≤ 10 then 0 else maxTm - 10)
    else maxTm - expTm
  else
    if expTm = -10 then (if maxTm ≤ 10 then 0 else maxTm - 10)
    else
      let dv := ccTm - expTm
      if dv < 0 then dv - 0.5 * |ccTm - maxTm| else dv + 0.5 * |ccTm - maxTm|

/-- Deviation rule as claim C2 words it: in the register-mismatch case the
sentinel handling is applied to `CCTm` ("deviation is 0 if CCTm ≤ 10 and
CCTm − 10 otherwise"). -/
def specDeviationClaim (ccReg bestReg : ℕ × ℕ × ℕ) (expTm bestTm ccTm : ℚ) : ℚ :=
  if ccReg = bestReg then
    if expTm = -10 then (if bestTm ≤ 10 then 0 else bestTm - 10)
    else bestTm - expTm
  else
    if expTm = -10 then (if ccTm ≤ 10 then 0 else ccTm - 10)
    else
      let base := ccTm - expTm
      if 0 ≤ base then base + 0.5 * |ccTm - bestTm| else base - 0.5 * |ccTm - bestTm|

/-- Deviation rule as claim C2 amended: in the register-mismatch case the
sentinel handling is applied to `bestTm` (the code's `maxTm`), not `CCTm`. -/
def specDeviationAmended (ccReg bestReg : ℕ × ℕ × ℕ) (expTm bestTm ccTm : ℚ) : ℚ :=
  if ccReg = bestReg then
    if expTm = -10 then (if bestTm ≤ 10 then 0 else bestTm - 10)
    else bestTm - expTm
  else
    if expTm = -10 then (if bestTm ≤ 10 then 0 else bestTm - 10)
    else
      let base := ccTm - expTm
      if 0 ≤ base then base + 0.5 * |ccTm - bestTm| else base - 0.5 * |ccTm - bestTm|

/-! ## Phase detection: `TripleHelix::determine_reptition`, main.cpp lines 250-292.

Counts Gly in the three residue tracks of chain 0 and compares each count
against `numAA / 3` (C++ integer division, i.e. the floor).  The three checks
run in sequence and each overwrites `XaaPos`; `goodPeptide` stays false only
when no track qualifies, in which case `XaaPos` keeps its prior value and the
sample is reported (logged), not rejected. -/

def glyCount (seq : ℕ → Char) (numAA k : ℕ) : ℕ :=
  ((List.range numAA).filter (fun x => x % 3 == k && seq x == 'G')).length

def determine_reptition (seq : ℕ → Char) (numAA : ℕ) (XaaPos0 : ℤ) : ℤ × Bool :=
  let st1 := if numAA / 3 ≤ glyCount seq numAA 0 then ((1 : ℤ), true) else (XaaPos0, false)
  let st2 := if numAA / 3 ≤ glyCount seq numAA 1 then ((2 : ℤ), true) else st1
  if numAA / 3 ≤ glyCount seq numAA 2 then ((0 : ℤ), true) else st2

/-! ## Data model for scoring, main.cpp lines 22-49 (parameterType) and
124-171 (TripleHelix).  Only the fields `ScoreHelix` reads are kept; sequences
and matrices are total functions (the C++ arrays are only read in-bounds). -/

structure ParameterType where
  axial : ℕ → ℕ → ℚ
  lateral : ℕ → ℕ → ℚ
  propensityX : ℕ → ℚ
  propensityY : ℕ → ℚ
  A : ℚ
  B : ℚ
  C : ℚ

structure TripleHelix where
  numPep : ℕ
  numAA : ℕ
  sequences : ℕ → ℕ → Char
  Nterm : String
  Cterm : String
  XaaPos : ℤ
  expTm : ℚ

/-- Residue letter to table index: `(short)ch - 64`, main.cpp line 1106 etc. -/
def ridx (ch : Char) : ℕ := ch.toNat - 64

/-- `isXaa`, main.cpp lines 207-211: `abs(position + (3 - XaaPos)) % 3 == 0`. -/
def isXaa (xp : ℤ) (p : ℕ) : Bool := ((p : ℤ) + (3 - xp)).natAbs % 3 == 0

/-- `isYaa`, main.cpp lines 213-217. -/
def isYaa (xp : ℤ) (p : ℕ) : Bool := ((p : ℤ) + (3 - xp)).natAbs % 3 == 1

/-- `isGly`, main.cpp lines 219-223. -/
def isGly (xp : ℤ) (p : ℕ) : Bool := ((p : ℤ) + (3 - xp)).natAbs % 3 == 2

/-- Net-charge increment of one residue: +1 for Lys/Arg, −1 for Glu/Asp
(main.cpp lines 1072-1101). -/
def chargeDelta (ch : Char) : ℤ :=
  if ch = 'K' ∨ ch = 'R' then 1 else if ch = 'E' ∨ ch = 'D' then -1 else 0

/-- Total-charge increment of one residue: +1 for any of Lys/Arg/Glu/Asp
(main.cpp lines 1072-1101). -/
def chargeAbsDelta (ch : Char) : ℤ :=
  if ch = 'K' ∨ ch = 'R' ∨ ch = 'E' ∨ ch = 'D' then 1 else 0

/-- Propensity contribution of one chain at one position: X-propensity when the
position is Xaa-role, Y-propensity when Yaa-role (main.cpp lines 1106-1113). -/
def propAt (P : ParameterType) (H : TripleHelix) (r x : ℕ) : ℚ :=
  (if isXaa H.XaaPos x then P.propensityX (ridx (H.sequences r x)) else 0) +
    (if isYaa H.XaaPos x then P.propensityY (ridx (H.sequences r x)) else 0)

/-- Per-position propensity term of the single-AA loop (main.cpp lines
1103-1125): full value for `2 < x < numAA - 2`, one third at the tips. -/
def regPerPosProp (P : ParameterType) (H : TripleHelix) (a b c x : ℕ) : ℚ :=
  if 2 < x ∧ x < H.numAA - 2 then
    propAt P H a x + propAt P H b x + propAt P H c x
  else
    propAt P H a x / 3 + propAt P H b x / 3 + propAt P H c x / 3

/-- Net-charge increment at one position, all three chains (lines 1070-1101). -/
def regChargeNet (H : TripleHelix) (a b c x : ℕ) : ℤ :=
  chargeDelta (H.sequences a x) + chargeDelta (H.sequences b x) +
    chargeDelta (H.sequences c x)

/-- Total-charge increment at one position, all three chains (lines 1070-1101). -/
def regChargeTot (H : TripleHelix) (a b c x : ℕ) : ℤ :=
  chargeAbsDelta (H.sequences a x) + chargeAbsDelta (H.sequences b x) +
    chargeAbsDelta (H.sequences c x)

/-- Charge penalty (main.cpp lines 1129-1132): when `|netCharge| > 6`, subtract
`(abs(netCharge) - 6) / 3` — an integer division, since `netCharge` is a
`short`.  `natAbs` is `> 6` here so ℕ division equals the C++ truncation. -/
def chargePenalty (net : ℤ) : ℚ :=
  if 6 < net.natAbs then ((net.natAbs - 6) / 3 : ℕ) else 0

/-- The propensity value accumulated before the single-AA loop: length basis
(lines 1014-1027, with the cap at 50), termination (1032-1033),
Tyr/Trp capping (1038-1053) and terminal hydrogen bonding (1061-1062).
For the canonical offset `d = 0` the trimmed helix equals the input helix. -/
def basePropensity (P : ParameterType) (H : TripleHelix) (a b c : ℕ) : ℚ :=
  let n := H.numAA
  let lb := if 50 < n then P.A + P.B * 50 + P.C * 50 * 50
            else P.A + P.B * (n : ℚ) + P.C * (n : ℚ) * (n : ℚ)
  let p1 := if H.Nterm = "n" then lb - 1.8 else lb
  let p2 := if H.Cterm = "c" then p1 - 1.8 else p1
  let p3 := if H.sequences a 0 = 'Y' ∧ H.sequences b 0 = 'Y' ∧ H.sequences c 0 = 'Y'
            then p2 + 3 else p2
  let p4 := if H.sequences a (n - 1) = 'Y' ∧ H.sequences b (n - 1) = 'Y' ∧
               H.sequences c (n - 1) = 'Y' then p3 + 3 else p3
  let p5 := if H.sequences a 0 = 'W' ∧ H.sequences b 0 = 'W' ∧ H.sequences c 0 = 'W'
            then p4 + 3 else p4
  let p6 := if H.sequences a (n - 1) = 'W' ∧ H.sequences b (n - 1) = 'W' ∧
               H.sequences c (n - 1) = 'W' then p5 + 3 else p5
  let p7 := if isXaa H.XaaPos 0 then p6 else p6 - 1.8
  if isGly H.XaaPos (n - 1) then p7 else p7 - 1.8

/-- The Yaa-role positions of the helix in increasing order; the interaction
threads are indexed by the running Yaa counter `i` (main.cpp lines 1139-1154). -/
def yaaList (H : TripleHelix) : List ℕ :=
  (List.range H.numAA).filter (fun x => isYaa H.XaaPos x)

/-- Axial interaction thread for the ordered pair `(r1, r2)` with axial offset
`off` (+2 for the first and second threads, +5 for the third); entries beyond
the populated Yaa count keep their initial value 0 (lines 884-890). -/
def axThread (P : ParameterType) (H : TripleHelix) (r1 r2 off : ℕ) : ℕ → ℚ :=
  fun i =>
    match (yaaList H).get? i with
    | some x =>
      if x + off < H.numAA then
        P.axial (ridx (H.sequences r1 x)) (ridx (H.sequences r2 (x + off)))
      else 0
    | none => 0

/-- Lateral interaction thread looking back one position (`x - 1 ≥ 0`), used by
the first and second threads (lines 1150-1151, 1178-1181). -/
def latThreadBack (P : ParameterType) (H : TripleHelix) (r1 r2 : ℕ) : ℕ → ℚ :=
  fun i =>
    match (yaaList H).get? i with
    | some x =>
      if 1 ≤ x then
        P.lateral (ridx (H.sequences r1 x)) (ridx (H.sequences r2 (x - 1)))
      else 0
    | none => 0

/-- Lateral interaction thread looking forward two positions (`x + 2 < numAA`),
used by the third thread (lines 1207-1210). -/
def latThreadFwd (P : ParameterType) (H : TripleHelix) (r1 r2 : ℕ) : ℕ → ℚ :=
  fun i =>
    match (yaaList H).get? i with
    | some x =>
      if x + 2 < H.numAA then
        P.lateral (ridx (H.sequences r1 x)) (ridx (H.sequences r2 (x + 2)))
      else 0
    | none => 0

/-- Forced destabilizing interactions: every strictly negative entry of both
thread arrays for `x < numYaa` is added unconditionally (lines 1160-1165). -/
def forcedNeg (X L : ℕ → ℚ) (numYaa : ℕ) : ℚ :=
  ((List.range numYaa).map
    (fun x => (if X x < 0 then X x else 0) + (if L x < 0 then L x else 0))).sum

/-- The pairwise bonus of one chain triple: three directional threads
(leading→middle, middle→trailing, trailing→leading), each fed to
`PairWiseCalc` with `lastPair = numYaa = numAA / 3`, plus the forced negative
contributions (main.cpp lines 1138-1222). -/
def pairwiseBonus (P : ParameterType) (H : TripleHelix) (a b c : ℕ) : ℚ :=
  let nY := H.numAA / 3
  PairWiseCalc (axThread P H a b 2) (latThreadBack P H a b) 0 nY 9 0 0 +
      forcedNeg (axThread P H a b 2) (latThreadBack P H a b) nY +
    (PairWiseCalc (axThread P H b c 2) (latThreadBack P H b c) 0 nY 9 0 0 +
      forcedNeg (axThread P H b c 2) (latThreadBack P H b c) nY) +
    (PairWiseCalc (axThread P H c a 5) (latThreadFwd P H c a) 0 nY 9 0 0 +
      forcedNeg (axThread P H c a 5) (latThreadFwd P H c a) nY)

structure RegResult where
  prop : ℚ
  pw : ℚ
  tm : ℚ
  net : ℤ
  tot : ℤ

/-- Scoring of one chain triple `(a, b, c)` at the canonical offset `d = 0`
(main.cpp lines 920-1227).  `ScoreHelix` zeroes `Propensity`, `PairWise` and
`Tm` on entry (lines 877-882) but *not* `netCharge`/`totalCharge`, so the
previous contents of those two grid cells are passed in as `prevNet`/`prevTot`
and the `++`/`--` of lines 1070-1101 accumulate on top of them. -/
def scoreRegister (P : ParameterType) (H : TripleHelix) (a b c : ℕ)
    (prevNet prevTot : ℤ) : RegResult :=
  let st := (List.range H.numAA).foldl
    (fun st x =>
      (st.1 + regPerPosProp P H a b c x,
       st.2.1 + regChargeNet H a b c x,
       st.2.2 + regChargeTot H a b c x))
    (basePropensity P H a b c, prevNet, prevTot)
  let prop := st.1 - chargePenalty st.2.1
  let pw := pairwiseBonus P H a b c
  { prop := prop, pw := pw, tm := prop + pw, net := st.2.1, tot := st.2.2 }

/-! ## Register scan, main.cpp lines 896-917 (initial values) and 1232-1296
(best/second-best and compositionally-correct updates). -/

structure ScanSt where
  maxTm : ℚ
  bestReg : ℕ × ℕ × ℕ × ℕ
  secTm : ℚ
  secReg : ℕ × ℕ × ℕ × ℕ
  ccTm : ℚ
  ccReg : ℕ × ℕ × ℕ × ℕ

/-- Initial scan state (lines 898-917): second best `-2000` at `(5,5,5,10)`,
best `-1000` at `(6,6,6,11)`, compositionally correct `-1500` at `(7,7,7,12)`. -/
def scanInit : ScanSt :=
  { maxTm := -1000, bestReg := (6, 6, 6, 11),
    secTm := -2000, secReg := (5, 5, 5, 10),
    ccTm := -1500, ccReg := (7, 7, 7, 12) }

/-- Best/second-best update (lines 1232-1256): `Tm >= maxTm` demotes the
running best to second best; otherwise `Tm >= secTm` replaces second best. -/
def updateBestSec (st : ScanSt) (r : ℕ × ℕ × ℕ × ℕ) (t : ℚ) : ScanSt :=
  if st.maxTm ≤ t then
    { st with secTm := st.maxTm, secReg := st.bestReg, maxTm := t, bestReg := r }
  else if st.secTm ≤ t then { st with secTm := t, secReg := r }
  else st

/-- Compositionally-correct update (lines 1258-1296).  Note the `numPep == 1`
branch (lines 1258-1268) does not write `CCRegister[3]`. -/
def updateCC (numPep : ℕ) (abc : ℕ × ℕ × ℕ) (d : ℕ) (t : ℚ) (st : ScanSt) : ScanSt :=
  let a := abc.1
  let b := abc.2.1
  let c := abc.2.2
  let st1 := if numPep = 1 ∧ st.ccTm ≤ t then
      { st with ccTm := t, ccReg := (a, b, c, st.ccReg.2.2.2) } else st
  let st2 := if (numPep = 2 ∧ (a ≠ b ∨ a ≠ c ∨ b ≠ c)) ∧ st1.ccTm ≤ t then
      { st1 with ccTm := t, ccReg := (a, b, c, d) } else st1
  if (numPep = 3 ∧ (a ≠ b ∧ a ≠ c ∧ b ≠ c)) ∧ st2.ccTm ≤ t then
    { st2 with ccTm := t, ccReg := (a, b, c, d) } else st2

/-- Enumeration order of the chain triples: `a` outer, then `b`, then `c`
(line 920; the offset loop is short-circuited to `d = 0`). -/
def enumRegs (numPep : ℕ) : List (ℕ × ℕ × ℕ) :=
  (List.range numPep).flatMap fun a =>
    (List.range numPep).flatMap fun b =>
      (List.range numPep).map fun c => (a, b, c)

/-- One full scan over the enumerated triples: best/second-best update first,
then the compositionally-correct update, as in the loop body. -/
def scanRegisters (numPep : ℕ) (tmOf : ℕ × ℕ × ℕ → ℚ) : ScanSt :=
  (enumRegs numPep).foldl
    (fun st abc =>
      updateCC numPep abc 0 (tmOf abc)
        (updateBestSec st (abc.1, abc.2.1, abc.2.2, 0) (tmOf abc)))
    scanInit

structure HelixResult where
  grid : ℕ × ℕ × ℕ → RegResult
  highTm : ℚ
  bestReg : ℕ × ℕ × ℕ × ℕ
  secTm : ℚ
  secReg : ℕ × ℕ × ℕ × ℕ
  ccTm : ℚ
  ccReg : ℕ × ℕ × ℕ × ℕ
  specificity : ℚ
  deviation : ℚ

/-- `ScoreHelix` (main.cpp lines 873-1366) restricted to the canonical offset:
scores every triple, scans for best/second-best/compositionally-correct,
sets `specificity = maxTm - secondBestTm` (line 1315) and the deviation
(lines 1325-1361).  `prev` supplies the `netCharge`/`totalCharge` grid contents
left over from earlier invocations (they are never zeroed by `ScoreHelix`). -/
def scoreHelix (P : ParameterType) (H : TripleHelix) (prev : ℕ × ℕ × ℕ → ℤ × ℤ) :
    HelixResult :=
  let grid := fun abc : ℕ × ℕ × ℕ =>
    scoreRegister P H abc.1 abc.2.1 abc.2.2 (prev abc).1 (prev abc).2
  let scan := scanRegisters H.numPep (fun abc => (grid abc).tm)
  { grid := grid
    highTm := scan.maxTm
    bestReg := scan.bestReg
    secTm := scan.secTm
    secReg := scan.secReg
    ccTm := scan.ccTm
    ccReg := scan.ccReg
    specificity := scan.maxTm - scan.secTm
    deviation := scoreDeviation
      (scan.ccReg.1, scan.ccReg.2.1, scan.ccReg.2.2.1)
      (scan.bestReg.1, scan.bestReg.2.1, scan.bestReg.2.2.1)
      H.expTm scan.maxTm scan.ccTm }

/-- The `netCharge`/`totalCharge` grid contents after a `ScoreHelix` run, for
feeding into a subsequent run on the same (never re-zeroed) sample. -/
def chargesOf (r : HelixResult) : ℕ × ℕ × ℕ → ℤ × ℤ :=
  fun abc => ((r.grid abc).net, (r.grid abc).tot)

/-! ## Calibration step, main.cpp lines 1926-1987 (the `optPropX` block; the
`optPropY`/`optAxial`/`optLat` blocks at 1990-2171 are identical in structure).

One scalar trial: decrease by `delta`; if the new value is within
`[reference - maxDev, reference + maxDev]`, rescore the library and accept the
change only when the new sum of squared deviations is strictly smaller than the
tracked one.  Otherwise add `2·delta` (net `+delta`) and repeat the bound
check/rescore/accept.  If neither attempt was accepted, restore the original
value.  Rescoring mutates the library in place (the charge grids accumulate),
so the rescore function threads a library state `σ`. -/

structure TrialSpec (σ : Type) where
  rescore : ℚ → σ → ℚ × σ
  ref : ℚ
  maxDev : ℚ
  delta : ℚ
  v : ℚ

def trialScalar {σ : Type} (ts : TrialSpec σ) (ssd : ℚ) (lib : σ) : ℚ × ℚ × σ :=
  let v1 := ts.v - ts.delta
  if ts.ref - ts.maxDev ≤ v1 ∧ (ts.rescore v1 lib).1 < ssd then
    (v1, (ts.rescore v1 lib).1, (ts.rescore v1 lib).2)
  else
    let lib1 := if ts.ref - ts.maxDev ≤ v1 then (ts.rescore v1 lib).2 else lib
    let v2 := v1 + ts.delta + ts.delta
    if v2 ≤ ts.ref + ts.maxDev ∧ (ts.rescore v2 lib1).1 < ssd then
      (v2, (ts.rescore v2 lib1).1, (ts.rescore v2 lib1).2)
    else
      let lib2 := if v2 ≤ ts.ref + ts.maxDev then (ts.rescore v2 lib1).2 else lib1
      (ts.v, ssd, lib2)

/-- A sequence of scalar trials in the fixed visitation order of the loop; the
tracked sum of squared deviations and the library state are threaded through. -/
def runTrials {σ : Type} : List (TrialSpec σ) → ℚ → σ → ℚ × σ
  | [], ssd, lib => (ssd, lib)
  | ts :: rest, ssd, lib =>
    let r := trialScalar ts ssd lib
    runTrials rest r.2.1 r.2.2

/-! ## Specification-side definitions used by individual claims. -/

/-- Claim C6's per-position propensity term: full value only strictly inside
both outermost triads, i.e. for `3 ≤ x ≤ numAA - 4`; one third within the
first three and the last three positions. -/
def claimPerPosProp (P : ParameterType) (H : TripleHelix) (a b c x : ℕ) : ℚ :=
  if 2 < x ∧ x + 3 < H.numAA then
    propAt P H a x + propAt P H b x + propAt P H c x
  else
    propAt P H a x / 3 + propAt P H b x / 3 + propAt P H c x / 3

/-- Claim C7's charge penalty: the exact rational `(|net| - 6) / 3`. -/
def claimChargePenalty (net : ℤ) : ℚ :=
  if 6 < net.natAbs then ((net.natAbs : ℚ) - 6) / 3 else 0

/-! ## Concrete samples used in counterexamples and witnesses. -/

def Pzero : ParameterType :=
  { axial := fun _ _ => 0, lateral := fun _ _ => 0,
    propensityX := fun _ => 0, propensityY := fun _ => 0, A := 0, B := 0, C := 0 }

def zeroPrev : ℕ × ℕ × ℕ → ℤ × ℤ := fun _ => (0, 0)

/-- Parameters for the C6 counterexample: X-propensity 3 for residue 'A'. -/
def PC6 : ParameterType :=
  { Pzero with propensityX := fun i => if i = 1 then 3 else 0 }

/-- Helix for the C6 counterexample: homotrimer of 24 alanines, phase 0. -/
def HC6 : TripleHelix :=
  { numPep := 1, numAA := 24, sequences := fun _ _ => 'A',
    Nterm := "Ac", Cterm := "Am", XaaPos := 0, expTm := 20 }

/-- Helix for the C7 counterexample: chain 0 has 3 Lys, chain 1 has 2 Lys, so
the triple (0,0,1) carries net charge 8. -/
def HC7 : TripleHelix :=
  { numPep := 2, numAA := 21,
    sequences := fun r x =>
      if r = 0 then (if x < 3 then 'K' else 'A') else (if x < 2 then 'K' else 'A'),
    Nterm := "Ac", Cterm := "Am", XaaPos := 0, expTm := 20 }

/-- Helix for the C8 failing input: homotrimer with 5 Lys; the second scoring
invocation doubles the accumulated net charge to 10 and triggers the charge
penalty. -/
def HC8 : TripleHelix :=
  { numPep := 1, numAA := 21,
    sequences := fun _ x => if x < 5 then 'K' else 'A',
    Nterm := "Ac", Cterm := "Am", XaaPos := 1, expTm := 20 }

/-- Tiny homotrimer used as the C10 witness. -/
def HC10 : TripleHelix :=
  { numPep := 1, numAA := 3, sequences := fun _ _ => 'G',
    Nterm := "Ac", Cterm := "Am", XaaPos := 1, expTm := 20 }

/-- Chain 0 for the C4 counterexample: 22 residues, Gly at 7 of the 8 positions
congruent to 0 mod 3 (position 21 is Pro), Pro elsewhere. -/
def seqC4 : ℕ → Char := fun x => if x % 3 = 0 ∧ x < 21 then 'G' else 'P'

/-! ## Helper lemmas. -/

theorem posPart_nonneg (q : ℚ) : 0 ≤ posPart q := le_max_right q 0

theorem ite_add_posPart (s q : ℚ) : (if q > 0 then s + q else s) = s + posPart q := by
  unfold posPart
  split_ifs with h
  · rw [max_eq_left h.le]
  · rw [max_eq_right (le_of_not_lt h), add_zero]

theorem ite_gt_max (s b : ℚ) : (if s > b then s else b) = max b s := by
  split_ifs with h
  · rw [max_eq_right h.le]
  · rw [max_eq_left (le_of_not_lt h)]

theorem add_max_distrib (s a b : ℚ) : s + max a b = max (s + a) (s + b) :=
  (max_add_add_left s a b).symm

theorem pwBest_nonneg (X L : ℕ → ℚ) :
    ∀ rem cur prev, 0 ≤ pwBest X L rem cur prev := by
  intro rem
  induction rem with
  | zero =>
    intro cur prev
    by_cases h : prev = 0 <;> simp [pwBest, h, posPart_nonneg]
  | succ rem ih =>
    intro cur prev
    by_cases h2 : prev = 2
    · subst h2
      simp only [pwBest, if_pos rfl]
      exact le_max_of_le_left (ih (cur + 1) 0)
    · by_cases h0 : prev = 0
      · subst h0
        simp only [pwBest, if_neg h2, if_pos rfl]
        exact le_max_of_le_left (add_nonneg (posPart_nonneg (L cur)) (ih (cur + 1) 1))
      · simp only [pwBest, if_neg h2, if_neg h0]
        exact le_max_of_le_left (ih (cur + 1) 0)

theorem max_alg_two (best sum B0 x B2 : ℚ) :
    max (max best (sum + B0)) (sum + x + B2) = max best (sum + max B0 (x + B2)) := by
  rw [add_max_distrib, ← max_assoc, ← add_assoc]

theorem max_alg_zero (best sum l B1 x B2 : ℚ) :
    max (max best (sum + l + B1)) (sum + l + x + B2) =
      max best (sum + max (l + B1) (l + x + B2)) := by
  rw [add_max_distrib, ← max_assoc]
  ring_nf

theorem max_alg_other (best sum B0 l B1 x B2 : ℚ) :
    max (max (max best (sum + B0)) (sum + l + B1)) (sum + l + x + B2) =
      max best (sum + max B0 (max (l + B1) (l + x + B2))) := by
  rw [add_max_distrib, add_max_distrib, ← max_assoc, ← max_assoc]
  ring_nf

/-- The recursion of `PairWiseCalc` computes `max best (sum + pwBest …)`:
the running best is threaded through, and the branch cascade contributes the
best completion of the remaining sites on top of the running sum. -/
theorem pwGo_eq_pwBest (X L : ℕ → ℚ) :
    ∀ rem cur prev sum best,
      pwGo X L rem cur prev sum best = max best (sum + pwBest X L rem cur prev) := by
  intro rem
  induction rem with
  | zero =>
    intro cur prev sum best
    by_cases h : prev = 0
    · simp [pwGo, pwBest, h, ite_add_posPart, ite_gt_max]
    · simp [pwGo, pwBest, h, ite_gt_max]
  | succ rem ih =>
    intro cur prev sum best
    by_cases h2 : prev = 2
    · subst h2
      simp only [pwGo, pwBest, if_pos rfl, ite_add_posPart,
        if_neg (by norm_num : ¬(2 : ℕ) ≠ 2), if_pos (by norm_num : (2 : ℕ) ≠ 0)]
      rw [ih, ih]
      exact max_alg_two best sum _ (posPart (X cur)) _
    · by_cases h0 : prev = 0
      · subst h0
        simp only [pwGo, pwBest, if_neg h2, if_pos rfl, ite_add_posPart,
          if_neg (by norm_num : ¬(0 : ℕ) ≠ 0), if_pos (by norm_num : (0 : ℕ) ≠ 2)]
        rw [ih, ih]
        exact max_alg_zero best sum (posPart (L cur)) _ (posPart (X cur)) _
      · simp only [pwGo, pwBest, if_neg h2, if_neg h0, if_pos h2, if_pos h0,
          ite_add_posPart]
        rw [ih, ih, ih]
        exact max_alg_other best sum _ (posPart (L cur)) _ (posPart (X cur)) _

/-! ## Claim C1. -/

theorem PairWiseCalc_pwBest (X L : ℕ → ℚ) (lastPair : ℕ) :
    PairWiseCalc X L 0 lastPair 9 0 0 = pwBest X L lastPair 0 9 := by
  unfold PairWiseCalc
  rw [if_neg (Nat.not_lt_zero lastPair), Nat.sub_zero, pwGo_eq_pwBest, zero_add,
    max_eq_right (pwBest_nonneg X L lastPair 0 9)]

/-- Claim C1, amended.  `PairWiseCalc(axial, lateral, 0, lastPair, 9, 0, 0)`
does not return the maximum over independent one-state-per-site assignments;
it returns `pwBest`: the maximum over paths in which (a) the state of the last
site is forced (None when the previous state is not None, else Lateral), and
(b) a site chosen Axial after a non-Axial state contributes `lateral[i]` (if
positive) in addition to `axial[i]` (if positive), because the lateral branch
of the recursion adds into the same running sum that the axial branch extends. -/
theorem C1_theorem (X L : ℕ → ℚ) (lastPair : ℕ) :
    PairWiseCalc X L 0 lastPair 9 0 0 = pwBest X L lastPair 0 9 :=
  PairWiseCalc_pwBest X L lastPair

/-- Claim C1, counterexample: with a single site (`lastPair = 0`) whose axial
value is 5, the claimed maximum over valid assignments is 5 (choose Axial), but
`PairWiseCalc` returns 0 — at the last site with previous type 9 only the
no-pair branch runs before returning. -/
theorem C1_counterexample :
    PairWiseCalc (fun _ => 5) (fun _ => 0) 0 0 9 0 0 ≠
      pwSpecMax (fun _ => 5) (fun _ => 0) 0 := by with_unfolding_all decide

/-! ## Claim C3. -/

/-- Claim C3, amended.  For a single populated interaction site (the call shape
used by `ScoreHelix` with `numYaa = 1`: `lastPair = 1`, entry 1 of both arrays
still 0), the result is `max(lateral[0], 0) + max(axial[0], 0)` — the sum of
the positive parts, not `max(0, axial[0], lateral[0])` — because the lateral
branch's contribution stays in the running sum when the axial branch extends it. -/
theorem C3_theorem (a l : ℚ) :
    PairWiseCalc (fun i => if i = 0 then a else 0) (fun i => if i = 0 then l else 0)
        0 1 9 0 0 = posPart l + posPart a := by
  rw [PairWiseCalc_pwBest]
  show pwBest _ _ (0 + 1) 0 9 = _
  simp only [pwBest]
  norm_num
  rw [show posPart (0 : ℚ) = 0 from by unfold posPart; exact max_self 0,
    max_eq_right (le_add_of_nonneg_right (posPart_nonneg a)),
    max_eq_right (add_nonneg (posPart_nonneg l) (posPart_nonneg a))]

/-- Claim C3, counterexample: for `axial[0] = 2`, `lateral[0] = 1` the claimed
value is `max(0, 2, 1) = 2`, but the interaction selector returns `3`. -/
theorem C3_counterexample :
    PairWiseCalc (fun i => if i = 0 then 2 else 0) (fun i => if i = 0 then 1 else 0)
        0 1 9 0 0 ≠ max 0 (max 2 1) := by
  rw [max_eq_left (by norm_num : (1 : ℚ) ≤ 2), max_eq_right (by norm_num : (0 : ℚ) ≤ 2)]
  with_unfolding_all decide

/-! ## Claim C2. -/

/-- Claim C2, amended.  The deviation rule as implemented: in the
register-match case, `bestTm − expTm` with the sentinel handling on `bestTm`;
in the register-mismatch case with the sentinel `expTm = −10`, the sentinel
handling is applied to `bestTm` (the code's `maxTm`), *not* to `CCTm`; in the
non-sentinel mismatch case, the base `CCTm − expTm` is adjusted by
`±0.5·|CCTm − bestTm|` exactly as the claim states. -/
theorem C2_theorem (ccReg bestReg : ℕ × ℕ × ℕ) (expTm bestTm ccTm : ℚ) :
    scoreDeviation ccReg bestReg expTm bestTm ccTm =
      specDeviationAmended ccReg bestReg expTm bestTm ccTm := by
  simp only [scoreDeviation, specDeviationAmended]
  split_ifs <;> first | rfl | linarith

/-- Claim C2, counterexample: registers differ, `expTm = −10`, `bestTm = 15`,
`CCTm = 5`.  The claim's rule gives 0 (since `CCTm ≤ 10`); the code gives
`maxTm − 10 = 5`. -/
theorem C2_counterexample :
    scoreDeviation (0, 0, 1) (0, 0, 0) (-10) 15 5 ≠
      specDeviationClaim (0, 0, 1) (0, 0, 0) (-10) 15 5 := by
  with_unfolding_all decide

/-! ## Claim C4. -/

/-- Claim C4, amended.  A track is selected as the phase exactly when its Gly
count reaches `⌊numAA/3⌋` (C++ integer division), not `⌈numAA/3⌉`; later
tracks take precedence (track 2 ↦ phase 0, then track 1 ↦ phase 2, then
track 0 ↦ phase 1); when no track qualifies the phase keeps its prior value
and the flag (the logged warning) is the only consequence. -/
theorem C4_theorem (seq : ℕ → Char) (numAA : ℕ) (XaaPos0 : ℤ) :
    ((determine_reptition seq numAA XaaPos0).2 = true ↔
      numAA / 3 ≤ glyCount seq numAA 0 ∨ numAA / 3 ≤ glyCount seq numAA 1 ∨
        numAA / 3 ≤ glyCount seq numAA 2) ∧
    (determine_reptition seq numAA XaaPos0).1 =
      (if numAA / 3 ≤ glyCount seq numAA 2 then 0
       else if numAA / 3 ≤ glyCount seq numAA 1 then 2
       else if numAA / 3 ≤ glyCount seq numAA 0 then 1
       else XaaPos0) := by
  simp only [determine_reptition]
  split_ifs <;> simp_all

/-- Claim C4, counterexample: a 22-residue chain whose track 0 holds 7 Gly.
`⌈22/3⌉ = 8`, so by the claim no track qualifies and no phase may be selected;
the code's threshold is `22/3 = 7`, so it selects track 0 (phase 1) and flags
the peptide as good. -/
theorem C4_counterexample :
    determine_reptition seqC4 22 5 = (1, true) ∧
      glyCount seqC4 22 0 < (22 + 2) / 3 ∧
      glyCount seqC4 22 1 < (22 + 2) / 3 ∧
      glyCount seqC4 22 2 < (22 + 2) / 3 := by
  with_unfolding_all decide

/-! ## Claim C5. -/

/-- Claim C5, amended.  The update conditions use `≥`, so a later triple whose
Tm *equals* the running best does replace it (demoting the old best to second
best), and likewise for the compositionally-correct register; consequently the
recorded register after the scan is the **last** triple in enumeration order
attaining the maximum, not the first. -/
theorem C5_theorem (st : ScanSt) (r : ℕ × ℕ × ℕ × ℕ) (a b c d : ℕ) :
    (updateBestSec st r st.maxTm).bestReg = r ∧
      (updateBestSec st r st.maxTm).maxTm = st.maxTm ∧
      (updateBestSec st r st.maxTm).secTm = st.maxTm ∧
      (updateBestSec st r st.maxTm).secReg = st.bestReg ∧
      (updateCC 2 (a, b, c) d st.ccTm st).ccReg =
        (if a ≠ b ∨ a ≠ c ∨ b ≠ c then (a, b, c, d) else st.ccReg) := by
  refine ⟨?_, ?_, ?_, ?_, ?_⟩ <;>
    · simp only [updateBestSec, updateCC, le_refl, if_pos]
      try (split_ifs <;> simp_all)

/-- Claim C5, counterexample: `numPep = 2` with all eight canonical triples at
the same Tm.  By the claim, the first triple `(0,0,0)` (and for the
compositionally-correct register the first eligible triple `(0,0,1)`) should
stay recorded; the code records the last ones, `(1,1,1)` and `(1,1,0)`. -/
theorem C5_counterexample :
    (scanRegisters 2 (fun _ => 5)).bestReg = (1, 1, 1, 0) ∧
      (scanRegisters 2 (fun _ => 5)).bestReg ≠ (0, 0, 0, 0) ∧
      (scanRegisters 2 (fun _ => 5)).ccReg = (1, 1, 0, 0) ∧
      (scanRegisters 2 (fun _ => 5)).ccReg ≠ (0, 0, 1, 0) := by
  with_unfolding_all decide

/-! ## Claims C6 and C7: decomposition of the single-AA loop. -/

/-- The accumulating loop of `scoreRegister` splits into independent sums. -/
theorem foldl_decomp (f : ℕ → ℚ) (g h : ℕ → ℤ) :
    ∀ (n : ℕ) (p : ℚ) (q r : ℤ),
      (List.range n).foldl
          (fun st x => (st.1 + f x, st.2.1 + g x, st.2.2 + h x)) (p, q, r) =
        (p + ((List.range n).map f).sum, q + ((List.range n).map g).sum,
          r + ((List.range n).map h).sum) := by
  intro n
  induction n with
  | zero => intro p q r; simp
  | succ n ih =>
    intro p q r
    rw [List.range_succ]
    simp only [List.foldl_append, List.foldl_cons, List.foldl_nil, List.map_append,
      List.sum_append, List.map_cons, List.sum_cons, List.map_nil, List.sum_nil, ih]
    refine Prod.ext ?_ (Prod.ext ?_ ?_) <;> simp <;> ring

/-- Claim C6, amended.  The propensity of a chain triple is the base value
(length, termini, capping, terminal H-bond) plus the per-position sum in which
a position contributes the full propensities exactly when `2 < x < numAA − 2`
— i.e. the reduced-weight "tips" are the first **three** positions but only
the last **two**, so position `numAA − 3` (inside the claim's C-terminal
triad) contributes in full — minus the charge penalty. -/
theorem C6_theorem (P : ParameterType) (H : TripleHelix) (a b c : ℕ)
    (prevNet prevTot : ℤ) :
    (scoreRegister P H a b c prevNet prevTot).prop =
      basePropensity P H a b c +
        ((List.range H.numAA).map (regPerPosProp P H a b c)).sum -
        chargePenalty ((scoreRegister P H a b c prevNet prevTot).net) := by
  simp only [scoreRegister, foldl_decomp]

/-- Claim C6, counterexample: homotrimer of 24 alanines with phase 0 and
X-propensity 3 for Ala.  Position 21 = numAA − 3 is Xaa-role; the code gives
it full weight (total 66) while the claim's outermost-triad rule gives it ⅓
(total 60). -/
theorem C6_counterexample :
    (scoreRegister PC6 HC6 0 0 0 0 0).prop ≠
      basePropensity PC6 HC6 0 0 0 +
        ((List.range HC6.numAA).map (claimPerPosProp PC6 HC6 0 0 0)).sum -
        chargePenalty ((scoreRegister PC6 HC6 0 0 0 0 0).net) := by
  with_unfolding_all decide

/-- Claim C7, amended.  The net charge of a triple is the prior grid content
plus the sum over all positions of the ±1 contributions of the three chains
(likewise the total charge), and the propensity equals the pre-penalty sum
minus `chargePenalty`, which subtracts the **integer quotient**
`(|net| − 6) / 3` — not the exact rational — whenever `|net| > 6`. -/
theorem C7_theorem (P : ParameterType) (H : TripleHelix) (a b c : ℕ)
    (prevNet prevTot : ℤ) :
    (scoreRegister P H a b c prevNet prevTot).net =
        prevNet + ((List.range H.numAA).map (regChargeNet H a b c)).sum ∧
      (scoreRegister P H a b c prevNet prevTot).tot =
        prevTot + ((List.range H.numAA).map (regChargeTot H a b c)).sum ∧
      (scoreRegister P H a b c prevNet prevTot).prop +
          chargePenalty ((scoreRegister P H a b c prevNet prevTot).net) =
        basePropensity P H a b c +
          ((List.range H.numAA).map (regPerPosProp P H a b c)).sum := by
  refine ⟨?_, ?_, ?_⟩ <;>
    · simp only [scoreRegister, foldl_decomp]
      try ring

/-- Claim C7, counterexample: the triple `(0,0,1)` of a two-peptide sample
with 3 Lys in chain 0 and 2 Lys in chain 1 has net charge 8, and the code's
penalty is the integer quotient `(8 − 6) / 3 = 0`, not the claimed rational
`2/3`. -/
theorem C7_counterexample :
    (scoreRegister Pzero HC7 0 0 1 0 0).net = 8 ∧
      chargePenalty 8 = 0 ∧ claimChargePenalty 8 = 2 / 3 ∧
      chargePenalty 8 ≠ claimChargePenalty 8 := by
  with_unfolding_all decide

/-! ## Claim C8. -/

/-- Claim C8 names a real bug: `ScoreHelix` zeroes `Propensity`, `PairWise`
and `Tm` on entry (lines 877-882) but not `netCharge`/`totalCharge`, which are
zeroed only once at load time (`initializeAll`, line 1548).  Re-invoking
`ScoreHelix` on the same sample therefore doubles the accumulated charges, and
once the accumulated `|netCharge|` crosses the penalty threshold the
`Propensity` (hence `Tm`) changes too.  Here: a homotrimer with 5 Lys per
chain has net charge 15 on its canonical triple after the first call and 30
after the second, and the propensity drops (penalty `(15−6)/3 = 3` versus
`(30−6)/3 = 8`). -/
theorem C8_eval :
    ((scoreHelix Pzero HC8 zeroPrev).grid (0, 0, 0)).net = 15 ∧
      ((scoreHelix Pzero HC8 (chargesOf (scoreHelix Pzero HC8 zeroPrev))).grid
          (0, 0, 0)).net = 30 ∧
      ((scoreHelix Pzero HC8 (chargesOf (scoreHelix Pzero HC8 zeroPrev))).grid
          (0, 0, 0)).prop ≠
        ((scoreHelix Pzero HC8 zeroPrev).grid (0, 0, 0)).prop := by
  with_unfolding_all decide

/-! ## Claim C9. -/

theorem trialScalar_ssd_le {σ : Type} (ts : TrialSpec σ) (ssd : ℚ) (lib : σ) :
    (trialScalar ts ssd lib).2.1 ≤ ssd := by
  simp only [trialScalar]
  split_ifs <;> first | exact le_rfl | (rename_i h; exact h.2.le)

theorem trialScalar_dichotomy {σ : Type} (ts : TrialSpec σ) (ssd : ℚ) (lib : σ) :
    (trialScalar ts ssd lib).2.1 < ssd ∨
      ((trialScalar ts ssd lib).2.1 = ssd ∧ (trialScalar ts ssd lib).1 = ts.v) := by
  simp only [trialScalar]
  split_ifs <;> first | exact Or.inr ⟨rfl, rfl⟩ | (rename_i h; exact Or.inl h.2)

theorem runTrials_ssd_le {σ : Type} :
    ∀ (steps : List (TrialSpec σ)) (ssd : ℚ) (lib : σ),
      (runTrials steps ssd lib).1 ≤ ssd := by
  intro steps
  induction steps with
  | nil => intro ssd lib; exact le_rfl
  | cons t rest ih =>
    intro ssd lib
    exact le_trans (ih _ _) (trialScalar_ssd_le t ssd lib)

/-- Claim C9, confirmed.  Across any sequence of scalar trials the tracked sum
of squared deviations never increases, and each single trial either strictly
decreases it (the perturbed value is kept) or leaves it unchanged with the
scalar restored to its original value. -/
theorem C9_theorem {σ : Type} (steps : List (TrialSpec σ)) (ssd : ℚ) (lib : σ) :
    (runTrials steps ssd lib).1 ≤ ssd ∧
      ∀ (ts : TrialSpec σ) (s : ℚ) (l : σ),
        (trialScalar ts s l).2.1 < s ∨
          ((trialScalar ts s l).2.1 = s ∧ (trialScalar ts s l).1 = ts.v) :=
  ⟨runTrials_ssd_le steps ssd lib, fun ts s l => trialScalar_dichotomy ts s l⟩

/-! ## Claim C10. -/

/-- Claim C10, confirmed.  For a single-peptide sample whose lone canonical
triple has `Tm ≥ −1000`, the scan's single iteration demotes the
initialization sentinel into the second-best slot: `secTm = −1000`,
`secRegister = (6,6,6,11)`, and `specificity = HighTm + 1000`. -/
theorem C10_theorem (P : ParameterType) (H : TripleHelix) (prev : ℕ × ℕ × ℕ → ℤ × ℤ)
    (h1 : H.numPep = 1)
    (h2 : -1000 ≤ ((scoreHelix P H prev).grid (0, 0, 0)).tm) :
    (scoreHelix P H prev).secTm = -1000 ∧
      (scoreHelix P H prev).secReg = (6, 6, 6, 11) ∧
      (scoreHelix P H prev).specificity = (scoreHelix P H prev).highTm + 1000 := by
  simp only [scoreHelix] at h2 ⊢
  rw [h1]
  have henum : enumRegs 1 = [(0, 0, 0)] := rfl
  simp only [scanRegisters, henum, List.foldl_cons, List.foldl_nil]
  set t := (scoreRegister P H 0 0 0 (prev (0, 0, 0)).1 (prev (0, 0, 0)).2).tm with ht
  have hbs : updateBestSec scanInit (0, 0, 0, 0) t =
      { maxTm := t, bestReg := (0, 0, 0, 0), secTm := -1000, secReg := (6, 6, 6, 11),
        ccTm := -1500, ccReg := (7, 7, 7, 12) } := by
    simp only [updateBestSec, scanInit]
    rw [if_pos h2]
  have hcc : updateCC 1 (0, 0, 0) 0 t
      { maxTm := t, bestReg := (0, 0, 0, 0), secTm := -1000, secReg := (6, 6, 6, 11),
        ccTm := -1500, ccReg := (7, 7, 7, 12) } =
      { maxTm := t, bestReg := (0, 0, 0, 0), secTm := -1000, secReg := (6, 6, 6, 11),
        ccTm := t, ccReg := (0, 0, 0, 12) } := by
    simp only [updateCC]
    norm_num
    linarith
  simp only [hbs, hcc]
  refine ⟨trivial, trivial, ?_⟩
  ring

/-- Witness for C10 at a concrete sample (`HC10`, a 3-residue Gly homotrimer
with all-zero parameters), discharging both hypotheses. -/
theorem C10_witness :
    HC10.numPep = 1 ∧
      -1000 ≤ ((scoreHelix Pzero HC10 zeroPrev).grid (0, 0, 0)).tm ∧
      ((scoreHelix Pzero HC10 zeroPrev).secTm = -1000 ∧
        (scoreHelix Pzero HC10 zeroPrev).secReg = (6, 6, 6, 11) ∧
        (scoreHelix Pzero HC10 zeroPrev).specificity =
          (scoreHelix Pzero HC10 zeroPrev).highTm + 1000) :=
  ⟨rfl, by with_unfolding_all decide,
    C10_theorem Pzero HC10 zeroPrev rfl (by with_unfolding_all decide)⟩

end Scepttr
